import Mathlib

/-
Verification of the protogen struct-tag parser and type classifier
(`parseStruct`, `inferProtoType`, `analyzeType`, the validation tables in
validation.go) against the repository specification.

Shallow embedding conventions:
  * Go strings are Lean `String`s; the Go helpers `strings.Split`,
    `strings.TrimSpace`, `strings.LastIndex` and `strconv.Atoi` are modelled
    by executable functions over the character list of a string.
  * The `go/ast` type expressions that the parser inspects are modelled by
    the inductive `Expr`; the two shapes of `ast.ArrayType` (nil vs non-nil
    `Len`) are the constructors `sliceType` and `fixedArrayType`.
  * `map[int]string` (the `seenFieldNums` duplicate tracker) is modelled as
    an association list; keys are only ever inserted after a failed lookup,
    so every key is unique and the insertion position is immaterial.
  * `sort.Slice` produces some permutation ordered by the comparison key;
    it is modelled by insertion sort, which has exactly that contract.
  * Fallible Go functions returning `(T, error)` become `Except String T`;
    error strings are assembled exactly as the `fmt.Errorf` format strings
    do, with `%q` on identifier-like arguments modelled by `goQuote`.
-/

/-- Go's unicode.IsSpace restricted to the code points it treats as white
space in Latin-1 (the only ones reachable from source tags). -/
def isGoSpace (c : Char) : Bool :=
  c = ' ' || c = '\t' || c = '\n' || c = (Char.ofNat 11) || c = (Char.ofNat 12) ||
  c = '\r' || c = (Char.ofNat 0x85) || c = (Char.ofNat 0xA0)

/-- Model of strings.TrimSpace. -/
def goTrim (s : String) : String :=
  String.mk (((s.data.dropWhile isGoSpace).reverse.dropWhile isGoSpace).reverse)

/-- Splits a character list at every occurrence of a separator character;
the empty list yields one empty group, like Go's strings.Split. -/
def splitCharsOn (sep : Char) : List Char → List (List Char)
  | [] => [[]]
  | c :: rest =>
    if c = sep then [] :: splitCharsOn sep rest
    else
      match splitCharsOn sep rest with
      | [] => [[c]]
      | g :: gs => (c :: g) :: gs

/-- Model of strings.Split with a one-character separator. -/
def goSplit (s : String) (sep : Char) : List String :=
  (splitCharsOn sep s.data).map String.mk

/-- Whether the first list is a prefix of the second. -/
def isPrefixChars : List Char → List Char → Bool
  | [], _ => true
  | _ :: _, [] => false
  | a :: as, b :: bs => a = b && isPrefixChars as bs

/-- Whether the first list occurs as a contiguous run inside the second. -/
def hasSubChars (needle : List Char) : List Char → Bool
  | [] => needle.isEmpty
  | c :: rest => isPrefixChars needle (c :: rest) || hasSubChars needle rest

/-- `strContains s sub` holds when `sub` occurs verbatim inside `s`
(model of strings.Contains, used to state "diagnostic containing X"). -/
def strContains (s sub : String) : Bool :=
  hasSubChars sub.data s.data

/-- Splits a character list around its last occurrence of a separator,
returning `none` when the separator does not occur (models
strings.LastIndex followed by the two slicings around the index). -/
def splitLastAux (sep : Char) : List Char → Option (List Char × List Char)
  | [] => none
  | c :: rest =>
    match splitLastAux sep rest with
    | some (pre, suf) => some (c :: pre, suf)
    | none => if c = sep then some ([], rest) else none

/-- Splits a string at its last colon (strings.LastIndex(part, ":")). -/
def splitLastColon (s : String) : Option (String × String) :=
  (splitLastAux ':' s.data).map (fun p => (String.mk p.1, String.mk p.2))

/-- Model of strconv.Atoi: optional sign, at least one decimal digit,
nothing else; values outside the signed 64-bit range report an error. -/
def goAtoi (s : String) : Option Int :=
  match s.data with
  | [] => none
  | c :: rest =>
    let (neg, digits) :=
      if c = '-' then (true, rest)
      else if c = '+' then (false, rest)
      else (false, c :: rest)
    if digits.isEmpty then none
    else if digits.all (fun d => d.isDigit) then
      let m : Nat := digits.foldl (fun acc d => acc * 10 + (d.toNat - 48)) 0
      let v : Int := if neg then -(m : Int) else (m : Int)
      if v < -(2 ^ 63) ∨ v > 2 ^ 63 - 1 then none else some v
    else none

/-- Model of fmt's %q verb on identifier-like strings (no escaping is
needed for the names that reach the diagnostics). -/
def goQuote (s : String) : String :=
  "\"" ++ s ++ "\""

/-- The subset of go/ast type expressions inspected by the generator.
`sliceType` is ast.ArrayType with Len == nil, `fixedArrayType` is
ast.ArrayType with a non-nil Len expression. -/
inductive Expr where
  | ident (name : String)
  | selector (x : Expr) (sel : String)
  | star (x : Expr)
  | sliceType (elt : Expr)
  | fixedArrayType (len : Expr) (elt : Expr)
  | mapType (key value : Expr)
  | interfaceType
  | chanType
  | funcType
  | basicLit (value : String)
deriving DecidableEq, Repr

/-- One entry of ast.StructType.Fields.List: the declared names (empty for
an embedded field), the type expression, and the value of the `protobuf`
struct-tag key (`none` models a nil Tag; reflect.StructTag.Get returns ""
when the key is absent). -/
structure GoField where
  names : List String
  type : Expr
  tag : Option String
deriving DecidableEq, Repr

/-- OneofVariant from types.go. -/
structure OneofVariant where
  TypeName : String
  FieldNum : Int
deriving DecidableEq, Repr

/-- FieldInfo from types.go; Go zero values are the field defaults. -/
structure FieldInfo where
  Name : String := ""
  GoType : String := ""
  FieldNum : Int := 0
  ProtoType : String := ""
  IsRepeated : Bool := false
  IsMessage : Bool := false
  IsPointer : Bool := false
  IsSliceOfPtr : Bool := false
  IsOptional : Bool := false
  IsEnum : Bool := false
  IsMap : Bool := false
  IsCustom : Bool := false
  ElemType : String := ""
  RawElemType : String := ""
  BaseType : String := ""
  NeedsTypeConv : Bool := false
  ConvType : String := ""
  MapKeyType : String := ""
  MapValueType : String := ""
  MapKeyProto : String := ""
  MapValueProto : String := ""
  MapValueIsMsg : Bool := false
  MapValueIsPtr : Bool := false
  MapValueCustom : Bool := false
  IsOneof : Bool := false
  OneofVariants : List OneofVariant := []
deriving DecidableEq, Repr

/-- TypeInfo from types.go. -/
structure TypeInfo where
  Name : String
  Fields : List FieldInfo := []
deriving DecidableEq, Repr

/-- exprToString from the parser source. The default branch of the Go
switch prints the dynamic type via %T; the fixed strings below stand in
for those type names. -/
def exprToString : Expr → String
  | .ident name => name
  | .selector x sel => exprToString x ++ "." ++ sel
  | .star x => "*" ++ exprToString x
  | .sliceType elt => "[]" ++ exprToString elt
  | .fixedArrayType len elt => "[" ++ exprToString len ++ "]" ++ exprToString elt
  | .basicLit v => v
  | .mapType k v => "map[" ++ exprToString k ++ "]" ++ exprToString v
  | .interfaceType => "*ast.InterfaceType"
  | .chanType => "*ast.ChanType"
  | .funcType => "*ast.FuncType"

/-- getTypeName from the parser source (used for embedded fields). -/
def getTypeName : Expr → String
  | .ident name => name
  | .selector _ sel => sel
  | .star x => getTypeName x
  | _ => ""

/-- The identifier branch of inferProtoType (the Go switch on t.Name). -/
def inferIdent (name : String) : String :=
  if name = "string" then "string"
  else if name = "bool" then "bool"
  else if name = "int32" then "int32"
  else if name = "int64" then "int64"
  else if name = "int" then "int64"
  else if name = "uint32" then "uint32"
  else if name = "uint64" then "uint64"
  else if name = "uint" then "uint64"
  else if name = "float32" then "float"
  else if name = "float64" then "double"
  else if name = "byte" then "int32"
  else if name = "any" then "interface"
  else "message"

/-- The type assertion `t.Elt.(*ast.Ident)` combined with the name test
`ident.Name == "byte"` from inferProtoType's slice branch. -/
def isByteIdent : Expr → Bool
  | .ident name => name = "byte"
  | _ => false

/-- inferProtoType from the parser source. -/
def inferProtoType : Expr → String
  | .ident name => inferIdent name
  | .interfaceType => "interface"
  | .selector _ _ => "message"
  | .star x => inferProtoType x
  | .sliceType elt =>
    if isByteIdent elt then "bytes" else inferProtoType elt
  | .fixedArrayType _ elt => inferProtoType elt
  | .mapType _ _ => "map"
  | _ => "bytes"

/-- analyzeType from the parser source; the Go function mutates its
FieldInfo argument, modelled here by returning the updated record. The
switch has no case for map, interface, channel, function or literal
expressions, and a fixed-length array falls through the `Len == nil`
test, so all of those leave the record unchanged. -/
def analyzeType (fi : FieldInfo) : Expr → FieldInfo
  | .ident name => { fi with BaseType := name, ElemType := name, RawElemType := name }
  | .selector x sel =>
    let fullType := exprToString (.selector x sel)
    { fi with BaseType := fullType, ElemType := fullType, RawElemType := fullType }
  | .star x =>
    let inner := exprToString x
    { fi with IsPointer := true, IsOptional := true,
              BaseType := inner, ElemType := inner, RawElemType := inner }
  | .sliceType elt =>
    if isByteIdent elt then
      { fi with BaseType := "[]byte", ElemType := "byte", RawElemType := "byte" }
    else
      match elt with
      | .star x =>
        let e := exprToString x
        { fi with IsRepeated := true, IsSliceOfPtr := true,
                  ElemType := e, RawElemType := "*" ++ e, BaseType := e }
      | _ =>
        let e := exprToString elt
        { fi with IsRepeated := true, ElemType := e, RawElemType := e, BaseType := e }
  | _ => fi

/-- validProtoTypes from validation.go, as the list of keys of the map. -/
def validProtoTypes : List String :=
  ["string", "bytes", "int32", "int64", "uint32", "uint64", "sint32", "sint64",
   "bool", "double", "float", "fixed32", "fixed64", "sfixed32", "sfixed64",
   "message", "enum", "map", "oneof"]

/-- isValidProtoType from validation.go. -/
def isValidProtoType (protoType : String) : Bool :=
  validProtoTypes.contains protoType

/-- validMapKeyTypes from validation.go, as the list of keys of the map. -/
def validMapKeyTypes : List String :=
  ["string", "int32", "int64", "uint32", "uint64", "sint32", "sint64",
   "fixed32", "fixed64", "sfixed32", "sfixed64", "bool"]

/-- isValidMapKeyType from validation.go. -/
def isValidMapKeyType (protoType : String) : Bool :=
  validMapKeyTypes.contains protoType

/-- The primitive-identifier list rejected by validateOneofFieldType. -/
def oneofForbiddenPrimitives : List String :=
  ["string", "bool", "byte", "rune", "int", "int8", "int16", "int32", "int64",
   "uint", "uint8", "uint16", "uint32", "uint64", "float32", "float64",
   "complex64", "complex128", "uintptr"]

/-- validateOneofFieldType from validation.go. -/
def validateOneofFieldType (expr : Expr) : Except String Unit :=
  match expr with
  | .ident name =>
    if oneofForbiddenPrimitives.contains name then
      .error ("oneof tag cannot be used on primitive type " ++ goQuote name)
    else
      .ok ()
  | .interfaceType => .ok ()
  | .sliceType _ =>
    .error ("oneof tag cannot be used on slice/array type " ++ exprToString expr)
  | .fixedArrayType _ _ =>
    .error ("oneof tag cannot be used on slice/array type " ++ exprToString expr)
  | .mapType _ _ =>
    .error ("oneof tag cannot be used on map type " ++ exprToString expr)
  | .star _ =>
    .error ("oneof tag cannot be used on pointer type " ++ exprToString expr ++
            " (the variants are stored as pointers)")
  | .chanType =>
    .error ("oneof tag cannot be used on channel type " ++ exprToString expr)
  | .funcType =>
    .error ("oneof tag cannot be used on function type")
  | .selector _ _ => .ok ()
  | .basicLit _ =>
    .error ("oneof tag cannot be used on type " ++ exprToString expr)

/-- The field-number parse and range checks of parseStruct's ordinary
branch (Atoi on the trimmed first tag part, then the >= 1, <= 536870911
and reserved-range tests, in source order). -/
def parseOrdinaryFieldNum (protoTag slot : String) : Except String Int :=
  match goAtoi (goTrim slot) with
  | none =>
    .error ("invalid field number in tag " ++ goQuote protoTag ++ ": must be a number")
  | some fieldNum =>
    if fieldNum < 1 then
      .error ("invalid field number " ++ toString fieldNum ++ " in tag " ++
              goQuote protoTag ++ ": must be >= 1")
    else if fieldNum > 536870911 then
      .error ("invalid field number " ++ toString fieldNum ++ " in tag " ++
              goQuote protoTag ++ ": must be <= 536870911")
    else if 19000 ≤ fieldNum ∧ fieldNum ≤ 19999 then
      .error ("invalid field number " ++ toString fieldNum ++ " in tag " ++
              goQuote protoTag ++ ": range 19000-19999 is reserved")
    else
      .ok fieldNum

/-- The range checks applied to a oneof variant's field number
(parseStruct's oneof branch, same bounds with variant-specific
messages). -/
def checkVariantFieldNum (variantType : String) (n : Int) : Except String Int :=
  if n < 1 ∨ n > 536870911 then
    .error ("invalid field number " ++ toString n ++ " for oneof variant " ++
            goQuote variantType ++ ": must be 1-536870911")
  else if 19000 ≤ n ∧ n ≤ 19999 then
    .error ("invalid field number " ++ toString n ++ " for oneof variant " ++
            goQuote variantType ++ ": range 19000-19999 is reserved")
  else
    .ok n

/-- The loop over `parts[1:]` in parseStruct's oneof branch: trim the
part, split at the last colon, parse and range-check the field number,
reject a number already used by an earlier variant of the same oneof,
and append the variant. -/
def parseVariants (protoTag : String) (acc : List OneofVariant) :
    List String → Except String (List OneofVariant)
  | [] => .ok acc
  | part0 :: rest =>
    let part := goTrim part0
    match splitLastColon part with
    | none =>
      .error ("invalid oneof variant " ++ goQuote part ++ " in tag " ++
              goQuote protoTag ++ ": expected Type:FieldNum format")
    | some (pre, suf) =>
      let variantType := goTrim pre
      match goAtoi (goTrim suf) with
      | none =>
        .error ("invalid field number for oneof variant " ++ goQuote part ++
                " in tag " ++ goQuote protoTag)
      | some n =>
        match checkVariantFieldNum variantType n with
        | .error e => .error e
        | .ok variantFieldNum =>
          match acc.find? (fun ex => ex.FieldNum == variantFieldNum) with
          | some existing =>
            .error ("duplicate field number " ++ toString variantFieldNum ++
                    " in oneof: used by both " ++ goQuote existing.TypeName ++
                    " and " ++ goQuote variantType)
          | none =>
            parseVariants protoTag
              (acc ++ [{ TypeName := variantType, FieldNum := variantFieldNum }]) rest

/-- parseStruct's oneof branch: validate the field's type expression for
oneof eligibility, require at least one variant part, and parse the
variant list. -/
def oneofBranch (typeName protoTag : String) (parts : List String) (field : GoField) :
    Except String (List OneofVariant) :=
  match validateOneofFieldType field.type with
  | .error err =>
    let fieldName := field.names.headD ""
    .error ("invalid oneof field " ++ goQuote fieldName ++ " in type " ++
            typeName ++ ": " ++ err)
  | .ok _ =>
    if parts.length < 2 then
      .error ("oneof tag requires at least one variant: " ++ protoTag)
    else
      parseVariants protoTag [] parts.tail

/-- The protoType selection of parseStruct: "oneof" for a oneof tag, the
validated trimmed second part when present, otherwise the wire type
inferred from the Go type expression. -/
def resolveProtoType (protoTag : String) (parts : List String) (isOneof : Bool)
    (fieldType : Expr) : Except String String :=
  if isOneof then .ok "oneof"
  else if parts.length ≥ 2 then
    let protoType := goTrim (parts.getD 1 "")
    if isValidProtoType protoType then .ok protoType
    else
      .error ("invalid protobuf type " ++ goQuote protoType ++ " in tag " ++
              goQuote protoTag)
  else
    .ok (inferProtoType fieldType)

/-- The map key/value wire types: explicit from tag positions 3 and 4
when present, else inferred from a Go map type, else empty. -/
def mapKVFromTag (parts : List String) (fieldType : Expr) : String × String :=
  if parts.length ≥ 4 then (goTrim (parts.getD 2 ""), goTrim (parts.getD 3 ""))
  else
    match fieldType with
    | .mapType k v => (inferProtoType k, inferProtoType v)
    | _ => ("", "")

/-- The map key/value resolution of parseStruct: the key/value wire
types followed by the map-key whitelist check. -/
def resolveMapTypes (protoTag : String) (parts : List String) (fieldType : Expr) :
    Except String (String × String) :=
  if isValidMapKeyType (mapKVFromTag parts fieldType).1 then
    .ok (mapKVFromTag parts fieldType)
  else
    .error ("invalid map key type " ++ goQuote (mapKVFromTag parts fieldType).1 ++
            " in tag " ++ goQuote protoTag ++ ": must be string, bool, or integer type")

/-- The option flags accumulated by parseStruct's option loop (the Go
local variables isRepeated, isOptional, isEnum, isCustom,
mapValueCustom). -/
structure TagOptions where
  isRepeated : Bool := false
  isOptional : Bool := false
  isEnum : Bool := false
  isCustom : Bool := false
  mapValueCustom : Bool := false
deriving DecidableEq, Repr

/-- One iteration of the option switch; unknown options are ignored. -/
def applyOption (isMap : Bool) (o : TagOptions) (part : String) : TagOptions :=
  let p := goTrim part
  if p = "repeated" then { o with isRepeated := true }
  else if p = "optional" then { o with isOptional := true }
  else if p = "enum" then { o with isEnum := true }
  else if p = "custom" then
    { o with isCustom := true, mapValueCustom := if isMap then true else o.mapValueCustom }
  else o

/-- The option loop over `parts[optionStart:]`. -/
def parseOptions (isMap : Bool) (init : TagOptions) (parts : List String) : TagOptions :=
  parts.foldl (applyOption isMap) init

/-- Field-name resolution: the declared names, or for an embedded
(anonymous) field the name extracted from its type expression. -/
def resolveFieldNames (typeName protoTag : String) (field : GoField) :
    Except String (List String) :=
  if field.names.isEmpty then
    let embeddedName := getTypeName field.type
    if embeddedName = "" then
      .error ("cannot determine name for embedded field with tag " ++
              goQuote protoTag ++ " in type " ++ typeName)
    else
      .ok [embeddedName]
  else
    .ok field.names

/-- The "Handle map-specific parsing" block of parseStruct: key/value
wire and Go types and the value-pointer flag, applied when the field is
a map. -/
def applyMapInfo (mapKeyProto mapValueProto : String) (mapValueCustom : Bool)
    (fieldType : Expr) (fi : FieldInfo) : FieldInfo :=
  if fi.IsMap then
    let fi := { fi with MapKeyProto := mapKeyProto, MapValueProto := mapValueProto,
                        MapValueIsMsg := mapValueProto = "message",
                        MapValueCustom := mapValueCustom }
    match fieldType with
    | .mapType k v =>
      let fi := { fi with MapKeyType := exprToString k, MapValueType := exprToString v }
      match v with
      | .star _ => { fi with MapValueIsPtr := true }
      | _ => fi
    | _ => fi
  else fi

/-- The "Handle enum type conversion" block of parseStruct. -/
def applyEnumInfo (fi : FieldInfo) : FieldInfo :=
  if fi.IsEnum then { fi with NeedsTypeConv := true, ConvType := "int32" } else fi

/-- Construction of one FieldInfo: the literal from parseStruct, then
GoType, analyzeType, the map-specific assignments, and the enum
conversion fields, in source order. -/
def mkFieldInfo (fieldNum : Int) (protoType : String) (opts : TagOptions)
    (isMap isOneof : Bool) (variants : List OneofVariant)
    (mapKeyProto mapValueProto : String) (fieldType : Expr)
    (fieldName : String) : FieldInfo :=
  let fi : FieldInfo :=
    { Name := fieldName
      FieldNum := fieldNum
      ProtoType := protoType
      IsRepeated := opts.isRepeated
      IsOptional := opts.isOptional
      IsMessage := protoType = "message"
      IsEnum := opts.isEnum
      IsMap := isMap
      IsCustom := opts.isCustom
      IsOneof := isOneof
      OneofVariants := variants }
  let fi := { fi with GoType := exprToString fieldType }
  let fi := analyzeType fi fieldType
  let fi := applyMapInfo mapKeyProto mapValueProto opts.mapValueCustom fieldType fi
  applyEnumInfo fi

/-- Lookup in the seenFieldNums association list (map[int]string). -/
def seenLookup : List (Int × String) → Int → Option String
  | [], _ => none
  | (k, v) :: rest, q => if q = k then some v else seenLookup rest q

/-- The ordinary-field duplicate check and insertion into seenFieldNums. -/
def insertOrdinaryNum (typeName fieldName : String) (fieldNum : Int)
    (seen : List (Int × String)) : Except String (List (Int × String)) :=
  match seenLookup seen fieldNum with
  | some existingField =>
    .error ("duplicate field number " ++ toString fieldNum ++ ": used by both " ++
            goQuote existingField ++ " and " ++ goQuote fieldName ++ " in type " ++
            typeName)
  | none => .ok ((fieldNum, fieldName) :: seen)

/-- The oneof duplicate check: every variant number is checked against
seenFieldNums and then recorded as fieldName:TypeName. -/
def insertOneofNums (typeName fieldName : String) (seen : List (Int × String)) :
    List OneofVariant → Except String (List (Int × String))
  | [] => .ok seen
  | v :: rest =>
    match seenLookup seen v.FieldNum with
    | some existingField =>
      .error ("duplicate field number " ++ toString v.FieldNum ++
              ": used by both " ++ goQuote existingField ++ " and oneof variant " ++
              goQuote v.TypeName ++ " in type " ++ typeName)
    | none =>
      insertOneofNums typeName fieldName
        ((v.FieldNum, fieldName ++ ":" ++ v.TypeName) :: seen) rest

/-- The `for _, fieldName := range fieldNames` loop of parseStruct:
per name, the duplicate check and seen update, then the FieldInfo
construction. -/
def processNames (typeName : String) (isOneof : Bool) (fieldNum : Int)
    (variants : List OneofVariant) (mk : String → FieldInfo)
    (seen : List (Int × String)) :
    List String → Except String (List (Int × String) × List FieldInfo)
  | [] => .ok (seen, [])
  | name :: rest =>
    match
      (if isOneof then insertOneofNums typeName name seen variants
       else insertOrdinaryNum typeName name fieldNum seen) with
    | .error e => .error e
    | .ok seen2 =>
      match processNames typeName isOneof fieldNum variants mk seen2 rest with
      | .error e => .error e
      | .ok (seen3, fis) => .ok (seen3, mk name :: fis)

/-- Processing of one tagged field of parseStruct's main loop, from the
comma split of the tag value through the per-name FieldInfo
construction; the Go pattern `x, err := f(); if err != nil { return }`
is Except.bind. -/
def processTaggedField (typeName : String) (seen : List (Int × String))
    (protoTag : String) (field : GoField) :
    Except String (List (Int × String) × List FieldInfo) :=
  let parts := goSplit protoTag ','
  let isOneof : Bool := goTrim (parts.headD "") = "oneof"
  Except.bind
    (if isOneof then
      Except.bind (oneofBranch typeName protoTag parts field)
        (fun vs => .ok ((-1 : Int), vs))
    else
      Except.bind (parseOrdinaryFieldNum protoTag (parts.headD ""))
        (fun n => .ok (n, ([] : List OneofVariant))))
    (fun fv =>
      Except.bind (resolveProtoType protoTag parts isOneof field.type)
        (fun protoType =>
          if protoType = "interface" then
            .error ("interface types are not supported for protobuf (use oneof tag for polymorphism): field " ++
                    goQuote (field.names.headD "") ++ " in type " ++ typeName ++
                    " has type " ++ exprToString field.type)
          else
            let isMap : Bool := protoType = "map"
            Except.bind
              (if isMap then resolveMapTypes protoTag parts field.type
               else .ok ("", ""))
              (fun kv =>
                let opts0 : TagOptions := { isEnum := protoType = "enum" }
                let optionStart := if isMap ∧ parts.length ≥ 4 then 4 else 2
                let opts :=
                  if isOneof then opts0
                  else parseOptions isMap opts0 (parts.drop optionStart)
                Except.bind (resolveFieldNames typeName protoTag field)
                  (fun fieldNames =>
                    processNames typeName isOneof fv.1 fv.2
                      (mkFieldInfo fv.1 protoType opts isMap isOneof fv.2
                        kv.1 kv.2 field.type)
                      seen fieldNames))))

/-- parseStruct's field loop: fields without a tag or with an empty
protobuf tag value are skipped; parsed fields are appended in order. -/
def parseFieldsAux (typeName : String) :
    List GoField → List (Int × String) → List FieldInfo → Except String (List FieldInfo)
  | [], _, acc => .ok acc
  | f :: rest, seen, acc =>
    match f.tag with
    | none => parseFieldsAux typeName rest seen acc
    | some protoTag =>
      if protoTag = "" then parseFieldsAux typeName rest seen acc
      else
        match processTaggedField typeName seen protoTag f with
        | .error e => .error e
        | .ok (seen2, fis) => parseFieldsAux typeName rest seen2 (acc ++ fis)

/-- The comparison key of the final sort.Slice call. -/
def fieldLe (a b : FieldInfo) : Prop :=
  a.FieldNum ≤ b.FieldNum

instance : DecidableRel fieldLe :=
  fun a b => inferInstanceAs (Decidable (a.FieldNum ≤ b.FieldNum))

instance : IsTotal FieldInfo fieldLe :=
  ⟨fun a b => Int.le_total a.FieldNum b.FieldNum⟩

instance : IsTrans FieldInfo fieldLe :=
  ⟨fun _ _ _ hab hbc => le_trans hab hbc⟩

/-- The final `sort.Slice(info.Fields, ...)` of parseStruct: some
permutation of the parsed fields ordered by ascending field number,
modelled by insertion sort. -/
def sortFields (fs : List FieldInfo) : List FieldInfo :=
  List.insertionSort fieldLe fs

/-- parseStruct from the parser source, over the modelled field list of
the struct type. -/
def parseStruct (typeName : String) (fields : List GoField) : Except String TypeInfo :=
  match parseFieldsAux typeName fields [] [] with
  | .error e => .error e
  | .ok fs => .ok { Name := typeName, Fields := sortFields fs }

/-- The field numbers a field contributes to the per-record uniqueness
check: the variant numbers for a oneof field (whose own FieldNum is the
-1 sentinel), the single field number otherwise. -/
def fieldNumbers (fi : FieldInfo) : List Int :=
  if fi.IsOneof then fi.OneofVariants.map (fun v => v.FieldNum) else [fi.FieldNum]

/-- Two fields use disjoint sets of field numbers. -/
def numDisjoint (f g : FieldInfo) : Prop :=
  ∀ n, n ∈ fieldNumbers f → n ∉ fieldNumbers g

/-- Whether an Except value is an error. -/
def isErr {α : Type} : Except String α → Bool
  | .error _ => true
  | .ok _ => false

/-- Whether a parse outcome is an error whose message contains the given
phrase. -/
def errorContains {α : Type} (r : Except String α) (phrase : String) : Bool :=
  match r with
  | .error e => strContains e phrase
  | .ok _ => false

/-- Spec-side description of one oneof variant part (spec §4.1: "split
each part at its last colon; the prefix is the variant type name, the
suffix is the variant field number"), used to state that the parser's
variant list refines it. -/
def specOneofVariant (part : String) : Option OneofVariant :=
  match splitLastColon (goTrim part) with
  | none => none
  | some (pre, suf) =>
    match goAtoi (goTrim suf) with
    | none => none
    | some n => some { TypeName := goTrim pre, FieldNum := n }

/-- Lookup by name in an association list of parsed record descriptors
(the typeInfos map of the orchestrator). -/
def alistLookup (infos : List (String × TypeInfo)) (k : String) : Option TypeInfo :=
  match infos with
  | [] => none
  | p :: rest => if p.1 = k then some p.2 else alistLookup rest k

/-- Modelled from the spec: the embedded template templates/proto.tmpl is
absent from the sources; per §4.3 it renders each oneof variant in its
stored (tag) order. -/
def renderVariant (v : OneofVariant) : String :=
  v.TypeName ++ ":" ++ toString v.FieldNum ++ ";"

/-- Modelled from the spec: templates/proto.tmpl renders one field's
encoder/decoder fragment from its descriptor, variants in stored order. -/
def renderField (fi : FieldInfo) : String :=
  fi.Name ++ " " ++ toString fi.FieldNum ++ " " ++ fi.ProtoType ++ " " ++
  String.join (fi.OneofVariants.map renderVariant) ++ "\n"

/-- Modelled from the spec: templates/proto.tmpl renders one requested
type's encoder and decoder, fields in their stored (field-number-sorted)
order, consulting the descriptor map only through a lookup by the
requested name. -/
def renderType (name : String) (info : Option TypeInfo) : String :=
  match info with
  | none => ""
  | some i => "func (" ++ name ++ ") " ++ i.Name ++ "\n" ++
              String.join (i.Fields.map renderField)

/-- Modelled from the spec: the header section (marshaler pool and oneof
interface shapes), suppressed in no-header mode. -/
def renderHeader (pkg : String) : String :=
  "package " ++ pkg ++ "\nvar _mp pool\n"

/-- generateCode from the emitter source, with the missing template's
rendering modelled from the spec: optional header, then each requested
type in requested order; the descriptor map is consulted only through
per-name lookups. -/
def generateCode (pkgName : String) (typeNames : List String)
    (typeInfos : List (String × TypeInfo)) (skipHeader : Bool) : String :=
  (if skipHeader then "" else renderHeader pkgName) ++
  String.join (typeNames.map (fun n => renderType n (alistLookup typeInfos n)))

lemma isPrefixChars_append (needle xs ys : List Char)
    (h : isPrefixChars needle xs = true) : isPrefixChars needle (xs ++ ys) = true := by
  induction needle generalizing xs with
  | nil => simp [isPrefixChars]
  | cons a as ih =>
    cases xs with
    | nil => simp [isPrefixChars] at h
    | cons b bs =>
      simp only [isPrefixChars, Bool.and_eq_true] at h ⊢
      exact ⟨h.1, ih bs h.2⟩

lemma hasSubChars_of_isPrefixChars (needle hay : List Char)
    (h : isPrefixChars needle hay = true) : hasSubChars needle hay = true := by
  cases hay with
  | nil =>
    cases needle with
    | nil => simp [hasSubChars]
    | cons a as => simp [isPrefixChars] at h
  | cons c rest => simp [hasSubChars, h]

lemma strContains_append (lit rest sub : String)
    (h : isPrefixChars sub.data lit.data = true) :
    strContains (lit ++ rest) sub = true := by
  have hdata : (lit ++ rest).data = lit.data ++ rest.data := by
    cases lit; cases rest; rfl
  unfold strContains
  rw [hdata]
  exact hasSubChars_of_isPrefixChars _ _ (isPrefixChars_append _ _ _ h)

lemma analyzeType_proj (fi : FieldInfo) (e : Expr) :
    (analyzeType fi e).IsOneof = fi.IsOneof ∧
    (analyzeType fi e).FieldNum = fi.FieldNum ∧
    (analyzeType fi e).OneofVariants = fi.OneofVariants ∧
    (analyzeType fi e).IsMap = fi.IsMap ∧
    (analyzeType fi e).ProtoType = fi.ProtoType ∧
    (analyzeType fi e).IsEnum = fi.IsEnum ∧
    (analyzeType fi e).MapKeyProto = fi.MapKeyProto := by
  cases e with
  | sliceType elt =>
    cases elt <;> simp [analyzeType, isByteIdent] <;> split <;> simp
  | _ => simp [analyzeType]

lemma applyMapInfo_proj (k v : String) (c : Bool) (t : Expr) (fi : FieldInfo) :
    (applyMapInfo k v c t fi).IsOneof = fi.IsOneof ∧
    (applyMapInfo k v c t fi).FieldNum = fi.FieldNum ∧
    (applyMapInfo k v c t fi).OneofVariants = fi.OneofVariants ∧
    (applyMapInfo k v c t fi).IsMap = fi.IsMap ∧
    (applyMapInfo k v c t fi).ProtoType = fi.ProtoType ∧
    (applyMapInfo k v c t fi).IsEnum = fi.IsEnum ∧
    (applyMapInfo k v c t fi).MapKeyProto = (if fi.IsMap then k else fi.MapKeyProto) := by
  unfold applyMapInfo
  by_cases h : fi.IsMap
  · simp only [h, if_true]
    cases t with
    | mapType tk tv => cases tv <;> simp
    | _ => simp
  · simp [h]

lemma applyEnumInfo_proj (fi : FieldInfo) :
    (applyEnumInfo fi).IsOneof = fi.IsOneof ∧
    (applyEnumInfo fi).FieldNum = fi.FieldNum ∧
    (applyEnumInfo fi).OneofVariants = fi.OneofVariants ∧
    (applyEnumInfo fi).IsMap = fi.IsMap ∧
    (applyEnumInfo fi).ProtoType = fi.ProtoType ∧
    (applyEnumInfo fi).MapKeyProto = fi.MapKeyProto := by
  unfold applyEnumInfo
  split <;> simp

lemma mkFieldInfo_proj (nu : Int) (pt : String) (opts : TagOptions)
    (im io : Bool) (vs : List OneofVariant) (k v : String) (t : Expr) (nm : String) :
    (mkFieldInfo nu pt opts im io vs k v t nm).IsOneof = io ∧
    (mkFieldInfo nu pt opts im io vs k v t nm).FieldNum = nu ∧
    (mkFieldInfo nu pt opts im io vs k v t nm).OneofVariants = vs ∧
    (mkFieldInfo nu pt opts im io vs k v t nm).IsMap = im ∧
    (mkFieldInfo nu pt opts im io vs k v t nm).ProtoType = pt ∧
    (mkFieldInfo nu pt opts im io vs k v t nm).MapKeyProto = (if im then k else "") := by
  unfold mkFieldInfo
  have h1 := analyzeType_proj
    { Name := nm, FieldNum := nu, ProtoType := pt, IsRepeated := opts.isRepeated,
      IsOptional := opts.isOptional, IsMessage := pt = "message", IsEnum := opts.isEnum,
      IsMap := im, IsCustom := opts.isCustom, IsOneof := io, OneofVariants := vs,
      GoType := exprToString t } t
  set fi1 := analyzeType
    { Name := nm, FieldNum := nu, ProtoType := pt, IsRepeated := opts.isRepeated,
      IsOptional := opts.isOptional, IsMessage := pt = "message", IsEnum := opts.isEnum,
      IsMap := im, IsCustom := opts.isCustom, IsOneof := io, OneofVariants := vs,
      GoType := exprToString t } t with hfi1
  have h2 := applyMapInfo_proj k v opts.mapValueCustom t fi1
  set fi2 := applyMapInfo k v opts.mapValueCustom t fi1 with hfi2
  have h3 := applyEnumInfo_proj fi2
  simp only [hfi1, hfi2] at h1 h2 h3 ⊢
  obtain ⟨a1, a2, a3, a4, a5, a6, a7⟩ := h1
  obtain ⟨b1, b2, b3, b4, b5, b6, b7⟩ := h2
  obtain ⟨c1, c2, c3, c4, c5, c6⟩ := h3
  simp_all

lemma insertOrdinaryNum_ok {tn nm : String} {nu : Int} {seen seen2 : List (Int × String)}
    (h : insertOrdinaryNum tn nm nu seen = .ok seen2) :
    seenLookup seen nu = none ∧ seen2 = (nu, nm) :: seen := by
  unfold insertOrdinaryNum at h
  cases hl : seenLookup seen nu with
  | some ex => rw [hl] at h; exact absurd h (by simp)
  | none => rw [hl] at h; exact ⟨rfl, by cases h; rfl⟩


lemma insertOneofNums_ok {tn nm : String} {seen seen2 : List (Int × String)}
    {vs : List OneofVariant}
    (h : insertOneofNums tn nm seen vs = .ok seen2) :
    (∀ v ∈ vs, seenLookup seen v.FieldNum = none) ∧
    (∀ k, seenLookup seen2 k = none ↔
      (seenLookup seen k = none ∧ k ∉ vs.map (fun v => v.FieldNum))) := by
  induction vs generalizing seen with
  | nil =>
    unfold insertOneofNums at h
    cases h
    exact ⟨by simp, by simp⟩
  | cons v rest ih =>
    unfold insertOneofNums at h
    cases hl : seenLookup seen v.FieldNum with
    | some ex => rw [hl] at h; exact absurd h (by simp)
    | none =>
      rw [hl] at h
      obtain ⟨ih1, ih2⟩ := ih h
      constructor
      · intro w hw
        rcases List.mem_cons.mp hw with hw | hw
        · subst hw; exact hl
        · have hw2 := ih1 w hw
          rw [seenLookup] at hw2
          by_cases he : w.FieldNum = v.FieldNum
          · rw [he]; exact hl
          · simpa [he] using hw2
      · intro k
        rw [ih2 k]
        rw [seenLookup]
        by_cases he : k = v.FieldNum
        · subst he
          simp [hl]
        · simp [he]

lemma processNames_ok {tn : String} {io : Bool} {nu : Int}
    {vs : List OneofVariant} {mk : String → FieldInfo}
    {seen seen2 : List (Int × String)} {names : List String} {fis : List FieldInfo}
    (h : processNames tn io nu vs mk seen names = .ok (seen2, fis)) :
    (∀ fi ∈ fis, ∃ nm, fi = mk nm) ∧
    (∀ k, seenLookup seen k ≠ none → seenLookup seen2 k ≠ none) ∧
    (fis ≠ [] → ∀ n ∈ (if io then vs.map (fun v => v.FieldNum) else [nu]),
      seenLookup seen n = none ∧ seenLookup seen2 n ≠ none) ∧
    ((if io then vs.map (fun v => v.FieldNum) else [nu]) ≠ [] → fis.length ≤ 1) := by
  induction names generalizing seen seen2 fis with
  | nil =>
    unfold processNames at h
    cases h
    exact ⟨by simp, fun k hk => hk, by simp, by simp⟩
  | cons name rest ih =>
    unfold processNames at h
    split at h
    · exact absurd h (by simp)
    case _ seenI hins =>
      split at h
      · exact absurd h (by simp)
      case _ p seen3 fis3 hrec =>
        rw [Except.ok.injEq, Prod.mk.injEq] at h
        obtain ⟨h31, h32⟩ := h
        subst h31
        subst h32
        obtain ⟨ihShape, ihMono, ihFresh, ihLen⟩ := ih hrec
        have hstep : (∀ n ∈ (if io then vs.map (fun v => v.FieldNum) else [nu]),
            seenLookup seen n = none) ∧
            (∀ k, seenLookup seenI k = none ↔
              (seenLookup seen k = none ∧
               k ∉ (if io then vs.map (fun v => v.FieldNum) else [nu]))) := by
          cases io with
          | true =>
            simp only [if_true] at hins ⊢
            obtain ⟨a, b⟩ := insertOneofNums_ok hins
            refine ⟨?_, b⟩
            intro n hn
            obtain ⟨v, hv, he⟩ := List.mem_map.mp hn
            exact he ▸ a v hv
          | false =>
            simp only [Bool.false_eq_true, if_false] at hins ⊢
            obtain ⟨a, b⟩ := insertOrdinaryNum_ok hins
            refine ⟨by simpa using a, ?_⟩
            intro k
            subst b
            rw [seenLookup]
            by_cases he : k = nu
            · subst he; simp [a]
            · simp [he]
        obtain ⟨hfresh0, hchar⟩ := hstep
        have hmonoI : ∀ k, seenLookup seen k ≠ none → seenLookup seenI k ≠ none := by
          intro k hk hcontra
          exact hk ((hchar k).mp hcontra).1
        refine ⟨?_, ?_, ?_, ?_⟩
        · intro fi hfi
          rcases List.mem_cons.mp hfi with hfi | hfi
          · exact ⟨name, hfi⟩
          · exact ihShape fi hfi
        · intro k hk
          exact ihMono k (hmonoI k hk)
        · intro _ n hn
          refine ⟨hfresh0 n hn, ?_⟩
          have hni : seenLookup seenI n ≠ none := by
            intro hcontra
            exact ((hchar n).mp hcontra).2 hn
          exact ihMono n hni
        · intro hne
          rcases hnil : fis3 with _ | ⟨f3, fs3⟩
          · simp [hnil]
          · exfalso
            obtain ⟨n0, hn0⟩ := List.exists_mem_of_ne_nil _ hne
            have hfr := ihFresh (by rw [hnil]; simp) n0 hn0
            exact ((hchar n0).mp hfr.1).2 hn0

lemma except_bind_ok {α β : Type} {x : Except String α} {f : α → Except String β}
    {y : β} (h : Except.bind x f = .ok y) : ∃ a, x = .ok a ∧ f a = .ok y := by
  cases x with
  | error e => exact absurd h (by simp [Except.bind])
  | ok a => exact ⟨a, rfl, h⟩

lemma resolveMapTypes_ok {tag : String} {parts : List String} {ft : Expr}
    {kv : String × String} (h : resolveMapTypes tag parts ft = .ok kv) :
    isValidMapKeyType kv.1 = true := by
  unfold resolveMapTypes at h
  split at h
  · cases h; assumption
  · exact absurd h (by simp)

lemma resolveProtoType_oneof {tag : String} {parts : List String} {ft : Expr}
    {pt : String} (h : resolveProtoType tag parts true ft = .ok pt) :
    pt = "oneof" := by
  unfold resolveProtoType at h
  simp at h
  exact h.symm

/-- The per-field facts guaranteed for every FieldInfo that a successful
parse produces. -/
def FieldShape (fi : FieldInfo) : Prop :=
  (fi.IsMap = true → isValidMapKeyType fi.MapKeyProto = true) ∧
  (fi.IsOneof = true → fi.FieldNum = -1 ∧ fi.ProtoType = "oneof") ∧
  fi.ProtoType ≠ "interface"

lemma pairwise_of_all_empty {l : List FieldInfo}
    (h : ∀ f ∈ l, fieldNumbers f = []) : List.Pairwise numDisjoint l := by
  induction l with
  | nil => exact List.Pairwise.nil
  | cons a rest ih =>
    refine List.Pairwise.cons ?_ (ih (fun f hf => h f (List.mem_cons_of_mem _ hf)))
    intro b _ n hn
    rw [h a (List.mem_cons_self _ _)] at hn
    cases hn

lemma mkFieldInfo_IsOneof (nu : Int) (pt : String) (opts : TagOptions)
    (im io : Bool) (vs : List OneofVariant) (k v : String) (t : Expr) (nm : String) :
    (mkFieldInfo nu pt opts im io vs k v t nm).IsOneof = io :=
  (mkFieldInfo_proj nu pt opts im io vs k v t nm).1

lemma mkFieldInfo_FieldNum (nu : Int) (pt : String) (opts : TagOptions)
    (im io : Bool) (vs : List OneofVariant) (k v : String) (t : Expr) (nm : String) :
    (mkFieldInfo nu pt opts im io vs k v t nm).FieldNum = nu :=
  (mkFieldInfo_proj nu pt opts im io vs k v t nm).2.1

lemma mkFieldInfo_OneofVariants (nu : Int) (pt : String) (opts : TagOptions)
    (im io : Bool) (vs : List OneofVariant) (k v : String) (t : Expr) (nm : String) :
    (mkFieldInfo nu pt opts im io vs k v t nm).OneofVariants = vs :=
  (mkFieldInfo_proj nu pt opts im io vs k v t nm).2.2.1

lemma mkFieldInfo_IsMap (nu : Int) (pt : String) (opts : TagOptions)
    (im io : Bool) (vs : List OneofVariant) (k v : String) (t : Expr) (nm : String) :
    (mkFieldInfo nu pt opts im io vs k v t nm).IsMap = im :=
  (mkFieldInfo_proj nu pt opts im io vs k v t nm).2.2.2.1

lemma mkFieldInfo_ProtoType (nu : Int) (pt : String) (opts : TagOptions)
    (im io : Bool) (vs : List OneofVariant) (k v : String) (t : Expr) (nm : String) :
    (mkFieldInfo nu pt opts im io vs k v t nm).ProtoType = pt :=
  (mkFieldInfo_proj nu pt opts im io vs k v t nm).2.2.2.2.1

lemma mkFieldInfo_MapKeyProto (nu : Int) (pt : String) (opts : TagOptions)
    (im io : Bool) (vs : List OneofVariant) (k v : String) (t : Expr) (nm : String) :
    (mkFieldInfo nu pt opts im io vs k v t nm).MapKeyProto = (if im then k else "") :=
  (mkFieldInfo_proj nu pt opts im io vs k v t nm).2.2.2.2.2

lemma processTaggedField_ok {tn : String} {seen seen2 : List (Int × String)}
    {tag : String} {f : GoField} {fis : List FieldInfo}
    (h : processTaggedField tn seen tag f = .ok (seen2, fis)) :
    (∀ k, seenLookup seen k ≠ none → seenLookup seen2 k ≠ none) ∧
    (∀ fi ∈ fis, ∀ n ∈ fieldNumbers fi,
      seenLookup seen n = none ∧ seenLookup seen2 n ≠ none) ∧
    List.Pairwise numDisjoint fis ∧
    (∀ fi ∈ fis, FieldShape fi) := by
  unfold processTaggedField at h
  dsimp only at h
  obtain ⟨fv, hbranch, h⟩ := except_bind_ok h
  obtain ⟨protoType, hpt, h⟩ := except_bind_ok h
  try dsimp only at h
  by_cases hiface : protoType = "interface"
  · rw [if_pos hiface] at h
    exact absurd h (by simp)
  rw [if_neg hiface] at h
  obtain ⟨kv, hmap, h⟩ := except_bind_ok h
  try dsimp only at h
  obtain ⟨fieldNames, hnames, h⟩ := except_bind_ok h
  obtain ⟨hShape, hMono, hFresh, hLen⟩ := processNames_ok h
  have hnum : ∀ fi ∈ fis, fieldNumbers fi =
      (if decide (goTrim ((goSplit tag ',').headD "") = "oneof") = true then
        fv.2.map (fun v => v.FieldNum) else [fv.1]) := by
    intro fi hfi
    obtain ⟨nm, hnm⟩ := hShape fi hfi
    subst hnm
    unfold fieldNumbers
    rw [mkFieldInfo_IsOneof, mkFieldInfo_FieldNum, mkFieldInfo_OneofVariants]
  refine ⟨hMono, ?_, ?_, ?_⟩
  · intro fi hfi n hn
    rw [hnum fi hfi] at hn
    exact hFresh (List.ne_nil_of_mem hfi) n hn
  · rcases hfis : fis with _ | ⟨a, _ | ⟨b, rest⟩⟩
    · exact List.Pairwise.nil
    · simp
    · by_cases hempty : (if decide (goTrim ((goSplit tag ',').headD "") = "oneof") = true then
        fv.2.map (fun v => v.FieldNum) else [fv.1]) = []
      · refine pairwise_of_all_empty ?_
        intro fi hfi
        rw [← hfis] at hfi
        rw [hnum fi hfi, hempty]
      · have hlen1 := hLen hempty
        rw [hfis] at hlen1
        simp at hlen1
  · intro fi hfi
    obtain ⟨nm, hnm⟩ := hShape fi hfi
    subst hnm
    refine ⟨?_, ?_, ?_⟩
    · intro hm
      rw [mkFieldInfo_IsMap] at hm
      rw [mkFieldInfo_MapKeyProto, if_pos hm]
      rw [if_pos hm] at hmap
      exact resolveMapTypes_ok hmap
    · intro ho
      rw [mkFieldInfo_IsOneof] at ho
      rw [if_pos ho] at hbranch
      obtain ⟨vs, _, hfv⟩ := except_bind_ok hbranch
      rw [Except.ok.injEq] at hfv
      have h1 : fv.1 = -1 := by rw [← hfv]
      rw [ho] at hpt
      have hpt3 := resolveProtoType_oneof hpt
      constructor
      · rw [mkFieldInfo_FieldNum, h1]
      · rw [mkFieldInfo_ProtoType, hpt3]
    · rw [mkFieldInfo_ProtoType]
      exact hiface

lemma parseFieldsAux_ok {tn : String} {fs : List GoField}
    {seen : List (Int × String)} {acc out : List FieldInfo}
    (h : parseFieldsAux tn fs seen acc = .ok out)
    (hacc1 : ∀ fi ∈ acc, ∀ n ∈ fieldNumbers fi, seenLookup seen n ≠ none)
    (hacc2 : List.Pairwise numDisjoint acc)
    (hacc3 : ∀ fi ∈ acc, FieldShape fi) :
    List.Pairwise numDisjoint out ∧ (∀ fi ∈ out, FieldShape fi) := by
  induction fs generalizing seen acc with
  | nil =>
    unfold parseFieldsAux at h
    cases h
    exact ⟨hacc2, hacc3⟩
  | cons f rest ih =>
    unfold parseFieldsAux at h
    cases htag : f.tag with
    | none =>
      rw [htag] at h
      exact ih h hacc1 hacc2 hacc3
    | some protoTag =>
      rw [htag] at h
      dsimp only at h
      by_cases hempty : protoTag = ""
      · rw [if_pos hempty] at h
        exact ih h hacc1 hacc2 hacc3
      · rw [if_neg hempty] at h
        cases hp : processTaggedField tn seen protoTag f with
        | error e =>
          rw [hp] at h
          exact absurd h (by simp)
        | ok p =>
          obtain ⟨seen2, fis⟩ := p
          rw [hp] at h
          obtain ⟨pMono, pFresh, pPair, pShape⟩ := processTaggedField_ok hp
          refine ih h ?_ ?_ ?_
          · intro fi hfi n hn
            rcases List.mem_append.mp hfi with hfi | hfi
            · exact pMono n (hacc1 fi hfi n hn)
            · exact (pFresh fi hfi n hn).2
          · rw [List.pairwise_append]
            refine ⟨hacc2, pPair, ?_⟩
            intro a ha b hb n hna hnb
            exact (hacc1 a ha n hna) (pFresh b hb n hnb).1
          · intro fi hfi
            rcases List.mem_append.mp hfi with hfi | hfi
            · exact hacc3 fi hfi
            · exact pShape fi hfi

lemma parseStruct_fields {tn : String} {fs : List GoField} {info : TypeInfo}
    (h : parseStruct tn fs = .ok info) :
    List.Pairwise numDisjoint info.Fields ∧
    (∀ fi ∈ info.Fields, FieldShape fi) ∧
    List.Pairwise fieldLe info.Fields := by
  unfold parseStruct at h
  cases hp : parseFieldsAux tn fs [] [] with
  | error e =>
    rw [hp] at h
    exact absurd h (by simp)
  | ok out =>
    rw [hp] at h
    cases h
    obtain ⟨hpair, hshape⟩ := parseFieldsAux_ok hp (by simp) List.Pairwise.nil (by simp)
    have hperm : List.Perm (sortFields out) out := List.perm_insertionSort fieldLe out
    have hsymm : Symmetric numDisjoint := fun a b hab n hna hnb => hab n hnb hna
    refine ⟨(hperm.pairwise_iff (fun {_ _} hab => hsymm hab)).mpr hpair, ?_, ?_⟩
    · intro fi hfi
      exact hshape fi (hperm.mem_iff.mp hfi)
    · exact List.sorted_insertionSort fieldLe out

lemma parseOrdinaryFieldNum_ok_iff (tag s : String) (n : Int)
    (h : goAtoi (goTrim s) = some n) :
    (parseOrdinaryFieldNum tag s = .ok n ↔
      (1 ≤ n ∧ n ≤ 536870911 ∧ ¬(19000 ≤ n ∧ n ≤ 19999))) := by
  unfold parseOrdinaryFieldNum
  rw [h]
  dsimp only
  split_ifs with h1 h2 h3 <;> simp <;> omega

lemma parseOrdinaryFieldNum_nonNumeric (tag s : String)
    (h : goAtoi (goTrim s) = none) :
    parseOrdinaryFieldNum tag s =
      .error ("invalid field number in tag " ++ goQuote tag ++ ": must be a number") := by
  unfold parseOrdinaryFieldNum
  rw [h]

lemma parseOrdinaryFieldNum_rejects (tag s : String) (n : Int)
    (h : goAtoi (goTrim s) = some n)
    (hc : ¬(1 ≤ n ∧ n ≤ 536870911 ∧ ¬(19000 ≤ n ∧ n ≤ 19999))) :
    isErr (parseOrdinaryFieldNum tag s) = true := by
  unfold parseOrdinaryFieldNum
  rw [h]
  dsimp only
  split_ifs with h1 h2 h3 <;> simp [isErr] <;> omega

lemma checkVariantFieldNum_ok_iff (vt : String) (n : Int) :
    (checkVariantFieldNum vt n = .ok n ↔
      (1 ≤ n ∧ n ≤ 536870911 ∧ ¬(19000 ≤ n ∧ n ≤ 19999))) := by
  unfold checkVariantFieldNum
  split_ifs with h1 h2 <;> simp <;> omega

lemma checkVariantFieldNum_rejects (vt : String) (n : Int)
    (hc : ¬(1 ≤ n ∧ n ≤ 536870911 ∧ ¬(19000 ≤ n ∧ n ≤ 19999))) :
    isErr (checkVariantFieldNum vt n) = true := by
  unfold checkVariantFieldNum
  split_ifs with h1 h2 <;> simp [isErr] <;> omega

lemma checkVariantFieldNum_ok_val {vt : String} {n m : Int}
    (h : checkVariantFieldNum vt n = .ok m) : m = n := by
  unfold checkVariantFieldNum at h
  split_ifs at h <;> simp_all

lemma parseVariants_noColon {tag : String} {acc : List OneofVariant}
    {parts : List String}
    (h : ∃ p ∈ parts, splitLastColon (goTrim p) = none) :
    isErr (parseVariants tag acc parts) = true := by
  induction parts generalizing acc with
  | nil => obtain ⟨p, hp, _⟩ := h; cases hp
  | cons p rest ih =>
    unfold parseVariants
    dsimp only
    cases hsc : splitLastColon (goTrim p) with
    | none => simp [isErr, hsc]
    | some pr =>
      obtain ⟨pre, suf⟩ := pr
      obtain ⟨q, hq, hbad⟩ := h
      rcases List.mem_cons.mp hq with hq | hq
      · rw [hq] at hbad
        rw [hsc] at hbad
        cases hbad
      · dsimp only
        cases hat : goAtoi (goTrim suf) with
        | none => simp [isErr, hat]
        | some n =>
          dsimp only
          cases hcv : checkVariantFieldNum (goTrim pre) n with
          | error e => simp [isErr, hcv]
          | ok m =>
            dsimp only
            cases hfind : acc.find? (fun ex => ex.FieldNum == m) with
            | some ex => simp [isErr, hfind]
            | none =>
              dsimp only
              exact ih ⟨q, hq, hbad⟩

lemma parseVariants_badNum {tag : String} {acc : List OneofVariant}
    {parts : List String}
    (h : ∃ p ∈ parts, ∃ pre suf, splitLastColon (goTrim p) = some (pre, suf) ∧
      goAtoi (goTrim suf) = none) :
    isErr (parseVariants tag acc parts) = true := by
  induction parts generalizing acc with
  | nil => obtain ⟨p, hp, _⟩ := h; cases hp
  | cons p rest ih =>
    unfold parseVariants
    dsimp only
    cases hsc : splitLastColon (goTrim p) with
    | none => simp [isErr]
    | some pr =>
      obtain ⟨pre, suf⟩ := pr
      dsimp only
      cases hat : goAtoi (goTrim suf) with
      | none => simp [isErr]
      | some n =>
        dsimp only
        obtain ⟨q, hq, pre2, suf2, hq1, hq2⟩ := h
        rcases List.mem_cons.mp hq with hqp | hqrest
        · exfalso
          rw [hqp, hsc] at hq1
          rw [Option.some.injEq, Prod.mk.injEq] at hq1
          rw [← hq1.2] at hq2
          rw [hq2] at hat
          cases hat
        · cases hcv : checkVariantFieldNum (goTrim pre) n with
          | error e => simp [isErr]
          | ok m =>
            dsimp only
            cases hfind : acc.find? (fun ex => ex.FieldNum == m) with
            | some ex => simp [isErr, hfind]
            | none =>
              dsimp only
              exact ih ⟨q, hqrest, pre2, suf2, hq1, hq2⟩

lemma parseVariants_ok_spec {tag : String} {acc vs : List OneofVariant}
    {parts : List String}
    (h : parseVariants tag acc parts = .ok vs) :
    ∃ ws, parts.mapM specOneofVariant = some ws ∧ vs = acc ++ ws := by
  induction parts generalizing acc with
  | nil =>
    unfold parseVariants at h
    cases h
    exact ⟨[], rfl, by simp⟩
  | cons p rest ih =>
    unfold parseVariants at h
    dsimp only at h
    cases hsc : splitLastColon (goTrim p) with
    | none => rw [hsc] at h; exact absurd h (by simp)
    | some pr =>
      obtain ⟨pre, suf⟩ := pr
      rw [hsc] at h
      dsimp only at h
      cases hat : goAtoi (goTrim suf) with
      | none => rw [hat] at h; exact absurd h (by simp)
      | some n =>
        rw [hat] at h
        dsimp only at h
        cases hcv : checkVariantFieldNum (goTrim pre) n with
        | error e => rw [hcv] at h; exact absurd h (by simp)
        | ok m =>
          rw [hcv] at h
          dsimp only at h
          have hmn := checkVariantFieldNum_ok_val hcv
          subst hmn
          cases hfind : acc.find? (fun ex => ex.FieldNum == m) with
          | some ex => rw [hfind] at h; exact absurd h (by simp)
          | none =>
            rw [hfind] at h
            dsimp only at h
            obtain ⟨ws2, hws1, hws2⟩ := ih h
            refine ⟨⟨goTrim pre, m⟩ :: ws2, ?_, ?_⟩
            · have hspec : specOneofVariant p = some ⟨goTrim pre, m⟩ := by
                unfold specOneofVariant
                rw [hsc]
                dsimp only
                rw [hat]
              rw [List.mapM_cons, hspec, hws1]
              rfl
            · rw [hws2]
              simp

lemma oneofBranch_noVariant {tn tag : String} {parts : List String} {f : GoField}
    (hval : validateOneofFieldType f.type = .ok ()) (hlen : parts.length < 2) :
    oneofBranch tn tag parts f =
      .error ("oneof tag requires at least one variant: " ++ tag) := by
  unfold oneofBranch
  rw [hval]
  dsimp only
  rw [if_pos hlen]

lemma hasSubChars_nil (ys : List Char) : hasSubChars [] ys = true := by
  cases ys <;> simp [hasSubChars, isPrefixChars]

lemma hasSubChars_append (needle xs ys : List Char)
    (h : hasSubChars needle xs = true) : hasSubChars needle (xs ++ ys) = true := by
  induction xs with
  | nil =>
    simp only [hasSubChars, List.isEmpty_iff] at h
    subst h
    exact hasSubChars_nil _
  | cons c rest ih =>
    simp only [hasSubChars, Bool.or_eq_true] at h ⊢
    rcases h with h | h
    · exact Or.inl (isPrefixChars_append _ _ _ h)
    · exact Or.inr (ih h)

lemma strContains_append_right (a b sub : String)
    (h : strContains a sub = true) : strContains (a ++ b) sub = true := by
  have hdata : (a ++ b).data = a.data ++ b.data := by cases a; cases b; rfl
  unfold strContains at h ⊢
  rw [hdata]
  exact hasSubChars_append _ _ _ h

lemma resolveProtoType_invalid {tag : String} {parts : List String} {ft : Expr}
    (hlen : parts.length ≥ 2)
    (hbad : isValidProtoType (goTrim (parts.getD 1 "")) = false) :
    resolveProtoType tag parts false ft =
      .error ("invalid protobuf type " ++ goQuote (goTrim (parts.getD 1 "")) ++
              " in tag " ++ goQuote tag) := by
  unfold resolveProtoType
  rw [if_neg (by simp)]
  rw [if_pos hlen]
  dsimp only
  simp only [List.getD, List.get?_eq_getElem?] at hbad
  rw [if_neg (by simp [hbad])]

lemma processTaggedField_invalidType {tn tag : String} {seen : List (Int × String)}
    {f : GoField} {n : Int}
    (hone : goTrim ((goSplit tag ',').headD "") ≠ "oneof")
    (hlen : (goSplit tag ',').length ≥ 2)
    (hbad : isValidProtoType (goTrim ((goSplit tag ',').getD 1 "")) = false)
    (hnum : parseOrdinaryFieldNum tag ((goSplit tag ',').headD "") = .ok n) :
    ∃ e, processTaggedField tn seen tag f = .error e ∧
      strContains e "invalid protobuf type" = true := by
  unfold processTaggedField
  dsimp only
  rw [decide_eq_false hone]
  rw [if_neg (by simp)]
  rw [hnum]
  dsimp only [Except.bind]
  rw [resolveProtoType_invalid hlen hbad]
  dsimp only [Except.bind]
  refine ⟨_, rfl, ?_⟩
  exact strContains_append_right _ _ _ (strContains_append_right _ _ _ (strContains_append_right _ _ _ (by decide)))

lemma processTaggedField_interface {tn tag : String} {seen : List (Int × String)}
    {f : GoField} {n : Int}
    (hone : goTrim ((goSplit tag ',').headD "") ≠ "oneof")
    (hlen : ¬((goSplit tag ',').length ≥ 2))
    (hinfer : inferProtoType f.type = "interface")
    (hnum : parseOrdinaryFieldNum tag ((goSplit tag ',').headD "") = .ok n) :
    ∃ e, processTaggedField tn seen tag f = .error e ∧
      strContains e "interface types are not supported" = true := by
  unfold processTaggedField
  dsimp only
  rw [decide_eq_false hone]
  rw [if_neg (by simp)]
  rw [hnum]
  dsimp only [Except.bind]
  have hpt : resolveProtoType tag (goSplit tag ',') false f.type = .ok "interface" := by
    unfold resolveProtoType
    rw [if_neg (by simp), if_neg hlen, hinfer]
  rw [hpt]
  dsimp only [Except.bind]
  rw [if_pos rfl]
  refine ⟨_, rfl, ?_⟩
  exact strContains_append_right _ _ _ (strContains_append_right _ _ _ (strContains_append_right _ _ _ (strContains_append_right _ _ _ (strContains_append_right _ _ _ (by decide)))))

lemma insertOrdinaryNum_dup {tn nm ex : String} {nu : Int}
    {seen : List (Int × String)}
    (h : seenLookup seen nu = some ex) :
    ∃ e, insertOrdinaryNum tn nm nu seen = .error e ∧
      strContains e "duplicate field number" = true := by
  unfold insertOrdinaryNum
  rw [h]
  refine ⟨_, rfl, ?_⟩
  exact strContains_append_right _ _ _ (strContains_append_right _ _ _ (strContains_append_right _ _ _ (strContains_append_right _ _ _ (strContains_append_right _ _ _ (strContains_append_right _ _ _ (strContains_append_right _ _ _ (by decide)))))))

lemma insertOneofNums_dup {tn nm ex : String} {seen : List (Int × String)}
    {v : OneofVariant} {rest : List OneofVariant}
    (h : seenLookup seen v.FieldNum = some ex) :
    ∃ e, insertOneofNums tn nm seen (v :: rest) = .error e ∧
      strContains e "duplicate field number" = true := by
  unfold insertOneofNums
  rw [h]
  refine ⟨_, rfl, ?_⟩
  exact strContains_append_right _ _ _ (strContains_append_right _ _ _ (strContains_append_right _ _ _ (strContains_append_right _ _ _ (strContains_append_right _ _ _ (strContains_append_right _ _ _ (strContains_append_right _ _ _ (by decide)))))))

lemma errorContains_of_error {α : Type} {r : Except String α} {e p : String}
    (h1 : r = .error e) (h2 : strContains e p = true) : errorContains r p = true := by
  rw [h1]
  exact h2

lemma isErr_of_errorContains {α : Type} {r : Except String α} {p : String}
    (h : errorContains r p = true) : isErr r = true := by
  cases r with
  | error e => rfl
  | ok a => exact absurd h (by simp [errorContains])

lemma isByteIdent_eq_false {e : Expr} (he : e ≠ .ident "byte") :
    isByteIdent e = false := by
  cases e with
  | ident n =>
    simp only [ne_eq, Expr.ident.injEq] at he
    simp [isByteIdent, he]
  | selector x sel => rfl
  | star x => rfl
  | sliceType elt => rfl
  | fixedArrayType l elt => rfl
  | mapType k v => rfl
  | interfaceType => rfl
  | chanType => rfl
  | funcType => rfl
  | basicLit v => rfl

lemma inferProtoType_slice_nonByte {e : Expr} (he : e ≠ .ident "byte") :
    inferProtoType (.sliceType e) = inferProtoType e := by
  have hb := isByteIdent_eq_false he
  simp [inferProtoType, hb]

lemma analyzeType_slice_repeated (fi : FieldInfo) {e : Expr} (he : e ≠ .ident "byte") :
    (analyzeType fi (.sliceType e)).IsRepeated = true := by
  have hb := isByteIdent_eq_false he
  cases e <;> simp_all [analyzeType, isByteIdent]

lemma inferIdent_default {name : String}
    (h : name ∉ (["string", "bool", "int32", "int64", "int", "uint32", "uint64",
      "uint", "float32", "float64", "byte", "any"] : List String)) :
    inferIdent name = "message" := by
  simp only [List.mem_cons, List.mem_singleton, not_or] at h
  obtain ⟨h1, h2, h3, h4, h5, h6, h7, h8, h9, h10, h11, h12⟩ := h
  simp [inferIdent, h1, h2, h3, h4, h5, h6, h7, h8, h9, h10, h11, h12]

lemma processTaggedField_ordErr {tn tag e : String} {seen : List (Int × String)}
    {f : GoField}
    (hone : goTrim ((goSplit tag ',').headD "") ≠ "oneof")
    (hnum : parseOrdinaryFieldNum tag ((goSplit tag ',').headD "") = .error e) :
    processTaggedField tn seen tag f = .error e := by
  unfold processTaggedField
  dsimp only
  rw [decide_eq_false hone, if_neg (by simp), hnum]
  rfl

lemma resolveMapTypes_err {tag e : String} {parts : List String} {ft : Expr}
    (h : resolveMapTypes tag parts ft = .error e) :
    strContains e "invalid map key type" = true := by
  unfold resolveMapTypes at h
  split at h
  · exact absurd h (by simp)
  · rw [Except.error.injEq] at h
    rw [← h]
    exact strContains_append_right _ _ _ (strContains_append_right _ _ _
      (strContains_append_right _ _ _ (strContains_append_right _ _ _ (by decide))))

/-- The first field of a parsed record, used to state concrete facts. -/
def firstField (i : TypeInfo) : FieldInfo :=
  i.Fields.headD {}

/-- The record descriptor of a successful parse (a placeholder record on
failure), used to state concrete facts about successful parses. -/
def parsedInfo (r : Except String TypeInfo) : TypeInfo :=
  match r with
  | .ok i => i
  | .error _ => { Name := "" }

/-- Two ordinary fields tagged with the same field number. -/
def exDupOrdinary : List GoField :=
  [{ names := ["A"], type := .ident "int32", tag := some "1" },
   { names := ["B"], type := .ident "int32", tag := some "1" }]

/-- One oneof whose two variants share a field number. -/
def exDupSameOneof : List GoField :=
  [{ names := ["X"], type := .ident "Msg", tag := some "oneof,A:1,B:1" }]

/-- Two different oneof fields with a colliding variant number. -/
def exDupTwoOneofs : List GoField :=
  [{ names := ["X"], type := .ident "Msg", tag := some "oneof,A:1" },
   { names := ["Y"], type := .ident "Msg", tag := some "oneof,B:1" }]

/-- An ordinary field at 2 and a oneof variant TextMessage:2. -/
def exDupMixed : List GoField :=
  [{ names := ["A"], type := .ident "int32", tag := some "2" },
   { names := ["C"], type := .ident "Msg", tag := some "oneof,TextMessage:2" }]

/-- A record with valid tags given out of order. -/
def exOkFields : List GoField :=
  [{ names := ["B"], type := .ident "int32", tag := some "5" },
   { names := ["A"], type := .ident "int32", tag := some "1" },
   { names := ["C"], type := .ident "string", tag := some "3" }]

/-- The oneof field of the spec's concrete scenario 4. -/
def exChatField : GoField :=
  { names := ["Content"], type := .ident "Message",
    tag := some "oneof,TextMessage:2,ImageMessage:3" }

/-- Claim C1: parseStruct rejects every reuse of a field number — between
two ordinary fields, between variants of one oneof, between variants of
different oneofs, and between an ordinary field and a oneof variant —
with a diagnostic containing "duplicate field number", and in every
successfully parsed record the number sets of distinct fields are
pairwise disjoint. -/
theorem C1_duplicate_field_numbers :
    (∀ tn fs info, parseStruct tn fs = .ok info →
      List.Pairwise numDisjoint info.Fields) ∧
    (∀ tn nm ex nu seen, seenLookup seen nu = some ex →
      errorContains (insertOrdinaryNum tn nm nu seen) "duplicate field number" = true) ∧
    (∀ tn nm ex seen (v : OneofVariant) rest, seenLookup seen v.FieldNum = some ex →
      errorContains (insertOneofNums tn nm seen (v :: rest)) "duplicate field number" = true) ∧
    errorContains (parseStruct "M" exDupOrdinary) "duplicate field number" = true ∧
    errorContains (parseStruct "M" exDupSameOneof) "duplicate field number" = true ∧
    errorContains (parseStruct "M" exDupTwoOneofs) "duplicate field number" = true ∧
    errorContains (parseStruct "M" exDupMixed) "duplicate field number" = true :=
  ⟨fun _ _ _ h => (parseStruct_fields h).1,
   fun _ _ _ _ _ h =>
     (insertOrdinaryNum_dup h).elim (fun _ hp => errorContains_of_error hp.1 hp.2),
   fun _ _ _ _ _ _ h =>
     (insertOneofNums_dup h).elim (fun _ hp => errorContains_of_error hp.1 hp.2),
   by decide, by decide, by decide, by decide⟩

/-- Witness for C1 at a concrete successfully parsed record. -/
theorem C1_witness :
    List.Pairwise numDisjoint (parsedInfo (parseStruct "W" exOkFields)).Fields :=
  C1_duplicate_field_numbers.1 "W" exOkFields _ rfl

/-- Claim C2: a parsed field-number slot is accepted exactly when its
value lies in [1, 536870911] outside the reserved range [19000, 19999] —
for the ordinary first tag part and for a oneof variant's suffix alike —
accepting 1, 18999, 20000 and 536870911 and rejecting 0, 19000, 19999,
536870912, negatives and non-numeric slots with an error. -/
theorem C2_field_number_ranges :
    (∀ tag s n, goAtoi (goTrim s) = some n →
      (parseOrdinaryFieldNum tag s = .ok n ↔
        (1 ≤ n ∧ n ≤ 536870911 ∧ ¬(19000 ≤ n ∧ n ≤ 19999)))) ∧
    (∀ tag s n, goAtoi (goTrim s) = some n →
      ¬(1 ≤ n ∧ n ≤ 536870911 ∧ ¬(19000 ≤ n ∧ n ≤ 19999)) →
      isErr (parseOrdinaryFieldNum tag s) = true) ∧
    (∀ tag s, goAtoi (goTrim s) = none →
      isErr (parseOrdinaryFieldNum tag s) = true) ∧
    (∀ vt n, (checkVariantFieldNum vt n = .ok n ↔
      (1 ≤ n ∧ n ≤ 536870911 ∧ ¬(19000 ≤ n ∧ n ≤ 19999)))) ∧
    (∀ vt n, ¬(1 ≤ n ∧ n ≤ 536870911 ∧ ¬(19000 ≤ n ∧ n ≤ 19999)) →
      isErr (checkVariantFieldNum vt n) = true) ∧
    (parseOrdinaryFieldNum "t" "1" = .ok 1 ∧
     parseOrdinaryFieldNum "t" "18999" = .ok 18999 ∧
     parseOrdinaryFieldNum "t" "20000" = .ok 20000 ∧
     parseOrdinaryFieldNum "t" "536870911" = .ok 536870911) ∧
    (isErr (parseOrdinaryFieldNum "t" "0") = true ∧
     isErr (parseOrdinaryFieldNum "t" "19000") = true ∧
     isErr (parseOrdinaryFieldNum "t" "19999") = true ∧
     isErr (parseOrdinaryFieldNum "t" "536870912") = true ∧
     isErr (parseOrdinaryFieldNum "t" "-7") = true ∧
     isErr (parseOrdinaryFieldNum "t" "abc") = true) :=
  ⟨parseOrdinaryFieldNum_ok_iff,
   parseOrdinaryFieldNum_rejects,
   fun tag s h => by rw [parseOrdinaryFieldNum_nonNumeric tag s h]; rfl,
   checkVariantFieldNum_ok_iff,
   checkVariantFieldNum_rejects,
   ⟨rfl, rfl, rfl, rfl⟩,
   ⟨by decide, by decide, by decide, by decide, by decide, by decide⟩⟩

/-- Witness for C2 at the concrete slot "42". -/
theorem C2_witness :
    goAtoi (goTrim "42") = some 42 ∧
    (parseOrdinaryFieldNum "t" "42" = .ok 42 ↔
      (1 ≤ (42 : Int) ∧ (42 : Int) ≤ 536870911 ∧
       ¬(19000 ≤ (42 : Int) ∧ (42 : Int) ≤ 19999))) :=
  ⟨by decide, C2_field_number_ranges.1 "t" "42" 42 (by decide)⟩

/-- Claim C3: a oneof tag needs at least one variant part (otherwise the
error mentions "at least one variant"); each part is split at its last
colon into type name and field number, a part without a colon or with a
non-numeric suffix fails, and a successful parse returns exactly the
spec-described variants in tag order — in particular
oneof,TextMessage:2,ImageMessage:3 yields (TextMessage,2) then
(ImageMessage,3). -/
theorem C3_oneof_variant_parsing :
    (∀ tn tag parts (f : GoField), validateOneofFieldType f.type = .ok () →
      parts.length < 2 →
      errorContains (oneofBranch tn tag parts f) "at least one variant" = true) ∧
    (∀ tag acc parts, (∃ p ∈ parts, splitLastColon (goTrim p) = none) →
      isErr (parseVariants tag acc parts) = true) ∧
    (∀ tag acc parts, (∃ p ∈ parts, ∃ pre suf,
        splitLastColon (goTrim p) = some (pre, suf) ∧ goAtoi (goTrim suf) = none) →
      isErr (parseVariants tag acc parts) = true) ∧
    (∀ tag acc parts vs, parseVariants tag acc parts = .ok vs →
      ∃ ws, parts.mapM specOneofVariant = some ws ∧ vs = acc ++ ws) ∧
    (parseStruct "Chat" [exChatField]).map
      (fun i => i.Fields.map (fun fi => fi.OneofVariants)) =
      .ok [[⟨"TextMessage", 2⟩, ⟨"ImageMessage", 3⟩]] :=
  ⟨fun tn tag parts f hval hlen =>
    errorContains_of_error (oneofBranch_noVariant hval hlen)
      (strContains_append_right _ _ _ (by decide)),
   fun _ _ _ h => parseVariants_noColon h,
   fun _ _ _ h => parseVariants_badNum h,
   fun _ _ _ _ h => parseVariants_ok_spec h,
   rfl⟩

/-- Witness for C3 at a concrete malformed variant part. -/
theorem C3_witness :
    isErr (parseVariants "t" [] ["Abc"]) = true :=
  C3_oneof_variant_parsing.2.1 "t" [] ["Abc"] (by decide)

/-- Claim C4: the inferred wire type follows the fixed table on bare
identifiers, maps inline interfaces to interface, qualified selectors to
message, recurses through pointers, maps map types to map, turns a byte
slice into scalar bytes without the repeated flag, and marks every other
slice repeated while inferring from its element. -/
theorem C4_wire_type_inference :
    inferProtoType (.ident "string") = "string" ∧
    inferProtoType (.ident "bool") = "bool" ∧
    inferProtoType (.ident "int32") = "int32" ∧
    inferProtoType (.ident "int64") = "int64" ∧
    inferProtoType (.ident "int") = "int64" ∧
    inferProtoType (.ident "uint32") = "uint32" ∧
    inferProtoType (.ident "uint64") = "uint64" ∧
    inferProtoType (.ident "uint") = "uint64" ∧
    inferProtoType (.ident "float32") = "float" ∧
    inferProtoType (.ident "float64") = "double" ∧
    inferProtoType (.ident "byte") = "int32" ∧
    inferProtoType (.ident "any") = "interface" ∧
    (∀ name, name ∉ (["string", "bool", "int32", "int64", "int", "uint32",
        "uint64", "uint", "float32", "float64", "byte", "any"] : List String) →
      inferProtoType (.ident name) = "message") ∧
    inferProtoType .interfaceType = "interface" ∧
    (∀ x sel, inferProtoType (.selector x sel) = "message") ∧
    (∀ x, inferProtoType (.star x) = inferProtoType x) ∧
    (∀ k v, inferProtoType (.mapType k v) = "map") ∧
    inferProtoType (.sliceType (.ident "byte")) = "bytes" ∧
    (∀ fi, analyzeType fi (.sliceType (.ident "byte")) =
      { fi with BaseType := "[]byte", ElemType := "byte", RawElemType := "byte" }) ∧
    (∀ e, e ≠ .ident "byte" → inferProtoType (.sliceType e) = inferProtoType e) ∧
    (∀ fi e, e ≠ .ident "byte" → (analyzeType fi (.sliceType e)).IsRepeated = true) ∧
    (parseStruct "M"
      [{ names := ["Data"], type := .sliceType (.ident "byte"), tag := some "1" }]).map
      (fun i => i.Fields.map (fun fi => (fi.ProtoType, fi.IsRepeated))) =
      .ok [("bytes", false)] :=
  ⟨rfl, rfl, rfl, rfl, rfl, rfl, rfl, rfl, rfl, rfl, rfl, rfl,
   fun _ h => inferIdent_default h,
   rfl,
   fun _ _ => rfl,
   fun _ => rfl,
   fun _ _ => rfl,
   rfl,
   fun _ => rfl,
   fun _ he => inferProtoType_slice_nonByte he,
   fun fi _ he => analyzeType_slice_repeated fi he,
   rfl⟩

/-- Witness for C4 at the concrete identifier Foo. -/
theorem C4_witness :
    inferProtoType (.ident "Foo") = "message" :=
  C4_wire_type_inference.2.2.2.2.2.2.2.2.2.2.2.2.1 "Foo" (by decide)

/-- Claim C5: a field with no explicit wire type whose source type infers
to interface is rejected with a diagnostic containing "interface types
are not supported"; oneof-tagged fields are immune because their wire
type is set to oneof before the check, and no parsed field ever carries
the interface wire type. -/
theorem C5_interface_rejection :
    (∀ tn seen tag (f : GoField) n,
      goTrim ((goSplit tag ',').headD "") ≠ "oneof" →
      ¬((goSplit tag ',').length ≥ 2) →
      inferProtoType f.type = "interface" →
      parseOrdinaryFieldNum tag ((goSplit tag ',').headD "") = .ok n →
      errorContains (processTaggedField tn seen tag f)
        "interface types are not supported" = true) ∧
    (∀ tn fs info, parseStruct tn fs = .ok info →
      ∀ fi ∈ info.Fields, fi.ProtoType ≠ "interface" ∧
        (fi.IsOneof = true → fi.ProtoType = "oneof")) ∧
    errorContains (parseStruct "M"
      [{ names := ["X"], type := .ident "any", tag := some "1" }])
      "interface types are not supported" = true ∧
    errorContains (parseStruct "M"
      [{ names := ["X"], type := .interfaceType, tag := some "1" }])
      "interface types are not supported" = true ∧
    isErr (parseStruct "M"
      [{ names := ["X"], type := .ident "any", tag := some "oneof,A:1" }]) = false :=
  ⟨fun _ _ _ _ _ hone hlen hinf hnum =>
    (processTaggedField_interface hone hlen hinf hnum).elim
      (fun _ hp => errorContains_of_error hp.1 hp.2),
   fun _ _ _ h fi hfi =>
    ⟨((parseStruct_fields h).2.1 fi hfi).2.2,
     fun ho => (((parseStruct_fields h).2.1 fi hfi).2.1 ho).2⟩,
   by decide, by decide, by decide⟩

/-- Witness for C5 at a concrete any-typed field with tag "1". -/
theorem C5_witness :
    errorContains (processTaggedField "M" [] "1"
      { names := ["X"], type := .ident "any", tag := some "1" })
      "interface types are not supported" = true :=
  C5_interface_rejection.1 "M" [] "1"
    { names := ["X"], type := .ident "any", tag := some "1" } 1
    (by decide) (by decide) rfl rfl

/-- A record with a valid map field used as the C6 witness input. -/
def exMapField : List GoField :=
  [{ names := ["D"], type := .mapType (.ident "string") (.ident "int32"),
     tag := some "1" }]

/-- Claim C6: a map field parses only when its key wire type lies in the
whitelist of string, bool and the integer wire types — never float,
double, bytes or message — any other key failing with a diagnostic
containing "invalid map key type", so map fields of successful parses
always carry a whitelisted key wire type. -/
theorem C6_map_key_validation :
    (∀ tn fs info, parseStruct tn fs = .ok info →
      ∀ fi ∈ info.Fields, fi.IsMap = true →
        isValidMapKeyType fi.MapKeyProto = true) ∧
    (∀ t, isValidMapKeyType t = true ↔ t ∈ validMapKeyTypes) ∧
    (isValidMapKeyType "string" = true ∧ isValidMapKeyType "bool" = true ∧
     isValidMapKeyType "int32" = true ∧ isValidMapKeyType "int64" = true ∧
     isValidMapKeyType "uint32" = true ∧ isValidMapKeyType "uint64" = true ∧
     isValidMapKeyType "sint32" = true ∧ isValidMapKeyType "sint64" = true ∧
     isValidMapKeyType "fixed32" = true ∧ isValidMapKeyType "fixed64" = true ∧
     isValidMapKeyType "sfixed32" = true ∧ isValidMapKeyType "sfixed64" = true) ∧
    (isValidMapKeyType "float" = false ∧ isValidMapKeyType "double" = false ∧
     isValidMapKeyType "bytes" = false ∧ isValidMapKeyType "message" = false) ∧
    (∀ tag parts ft e, resolveMapTypes tag parts ft = .error e →
      strContains e "invalid map key type" = true) ∧
    errorContains (parseStruct "M"
      [{ names := ["D"], type := .mapType (.ident "float64") (.ident "int32"),
         tag := some "1" }])
      "invalid map key type" = true :=
  ⟨fun _ _ _ h fi hfi hm => ((parseStruct_fields h).2.1 fi hfi).1 hm,
   fun t => by simp [isValidMapKeyType],
   ⟨rfl, rfl, rfl, rfl, rfl, rfl, rfl, rfl, rfl, rfl, rfl, rfl⟩,
   ⟨rfl, rfl, rfl, rfl⟩,
   fun _ _ _ _ h => resolveMapTypes_err h,
   by decide⟩

/-- Witness for C6 at a concrete record with a string-keyed map field. -/
theorem C6_witness :
    isValidMapKeyType (firstField (parsedInfo (parseStruct "M" exMapField))).MapKeyProto = true :=
  C6_map_key_validation.1 "M" exMapField _ rfl
    (firstField (parsedInfo (parseStruct "M" exMapField))) (by decide) (by decide)

/-- Claim C7: the field list of every successfully parsed record is
sorted by non-decreasing stored field number, oneof fields carrying the
-1 sentinel. -/
theorem C7_fields_sorted :
    ∀ tn fs info, parseStruct tn fs = .ok info →
      List.Pairwise fieldLe info.Fields ∧
      (∀ fi ∈ info.Fields, fi.IsOneof = true → fi.FieldNum = -1) :=
  fun _ _ _ h =>
    ⟨(parseStruct_fields h).2.2,
     fun fi hfi ho => (((parseStruct_fields h).2.1 fi hfi).2.1 ho).1⟩

/-- Witness for C7 at a concrete record with out-of-order tags. -/
theorem C7_witness :
    List.Pairwise fieldLe (parsedInfo (parseStruct "S" exOkFields)).Fields :=
  (C7_fields_sorted "S" exOkFields _ rfl).1

/-- Claim C8: an explicit second tag part must belong to the wire-type
whitelist; any other word there — such as an option like repeated
written without a wire type — fails, with a diagnostic containing
"invalid protobuf type" once the field number itself is valid. -/
theorem C8_explicit_wire_type_whitelist :
    (∀ t, isValidProtoType t = true ↔ t ∈ validProtoTypes) ∧
    (isValidProtoType "repeated" = false ∧ isValidProtoType "optional" = false ∧
     isValidProtoType "custom" = false) ∧
    (∀ tn seen tag (f : GoField),
      goTrim ((goSplit tag ',').headD "") ≠ "oneof" →
      (goSplit tag ',').length ≥ 2 →
      isValidProtoType (goTrim ((goSplit tag ',').getD 1 "")) = false →
      isErr (processTaggedField tn seen tag f) = true) ∧
    (∀ tn seen tag (f : GoField) n,
      goTrim ((goSplit tag ',').headD "") ≠ "oneof" →
      (goSplit tag ',').length ≥ 2 →
      isValidProtoType (goTrim ((goSplit tag ',').getD 1 "")) = false →
      parseOrdinaryFieldNum tag ((goSplit tag ',').headD "") = .ok n →
      errorContains (processTaggedField tn seen tag f) "invalid protobuf type" = true) ∧
    errorContains (parseStruct "M"
      [{ names := ["A"], type := .sliceType (.ident "int32"), tag := some "1,repeated" }])
      "invalid protobuf type" = true :=
  ⟨fun t => by simp [isValidProtoType],
   ⟨rfl, rfl, rfl⟩,
   fun tn seen tag f hone hlen hbad => by
    cases hnum : parseOrdinaryFieldNum tag ((goSplit tag ',').headD "") with
    | error e => rw [processTaggedField_ordErr hone hnum]; rfl
    | ok n =>
      exact isErr_of_errorContains
        ((processTaggedField_invalidType hone hlen hbad hnum).elim
          (fun _ hp => errorContains_of_error hp.1 hp.2)),
   fun tn seen tag f n hone hlen hbad hnum =>
    (processTaggedField_invalidType hone hlen hbad hnum).elim
      (fun _ hp => errorContains_of_error hp.1 hp.2),
   by decide⟩

/-- Witness for C8 at the concrete tag "1,repeated". -/
theorem C8_witness :
    errorContains (processTaggedField "M" [] "1,repeated"
      { names := ["A"], type := .sliceType (.ident "int32"), tag := some "1,repeated" })
      "invalid protobuf type" = true :=
  C8_explicit_wire_type_whitelist.2.2.2.1 "M" [] "1,repeated"
    { names := ["A"], type := .sliceType (.ident "int32"), tag := some "1,repeated" } 1
    (by decide) (by decide) (by decide) rfl

/-- Claim C10: a fixed-length array infers its wire type from the element
alone — [4]byte gives int32, not bytes — is never marked repeated, and
the type analysis leaves the descriptor untouched, so base and element
type strings stay empty; only slices get the repeated or bytes
classification. -/
theorem C10_fixed_length_arrays :
    (∀ l e, inferProtoType (.fixedArrayType l e) = inferProtoType e) ∧
    inferProtoType (.fixedArrayType (.basicLit "4") (.ident "byte")) = "int32" ∧
    (∀ fi l e, analyzeType fi (.fixedArrayType l e) = fi) ∧
    (parseStruct "M"
      [{ names := ["Data"], type := .fixedArrayType (.basicLit "4") (.ident "byte"),
         tag := some "1" }]).map
      (fun i => i.Fields.map (fun fi =>
        (fi.ProtoType, fi.IsRepeated, fi.BaseType, fi.ElemType))) =
      .ok [("int32", false, "", "")] :=
  ⟨fun _ _ => rfl, rfl, fun _ _ _ => rfl, rfl⟩

/-- A small parsed record used as C9 witness data. -/
def exInfoA : TypeInfo :=
  { Name := "A",
    Fields := [{ Name := "ID", FieldNum := 1, ProtoType := "int64" }] }

/-- A second parsed record used as C9 witness data. -/
def exInfoB : TypeInfo :=
  { Name := "B",
    Fields := [{ Name := "Text", FieldNum := 2, ProtoType := "string" }] }

/-- Claim C9: the generator is deterministic — the emitted text is a
function of the requested-type order, the per-type descriptors (fields in
stored order, variants in stored order) and the flags, and consults the
descriptor map only through name lookups, so the map's iteration order
cannot influence the output: two descriptor maps with the same lookups
yield byte-identical text. -/
theorem C9_generator_determinism :
    ∀ pkg typeNames infos1 infos2 skip,
      (∀ k, alistLookup infos1 k = alistLookup infos2 k) →
      generateCode pkg typeNames infos1 skip =
        generateCode pkg typeNames infos2 skip := by
  intro pkg names i1 i2 skip h
  unfold generateCode
  have hmap : (fun n => renderType n (alistLookup i1 n)) =
      (fun n => renderType n (alistLookup i2 n)) :=
    funext fun n => by rw [h n]
  rw [hmap]

/-- Witness for C9: two association lists holding the same descriptors in
opposite order produce identical output. -/
theorem C9_witness :
    generateCode "pkg" ["A", "B"] [("A", exInfoA), ("B", exInfoB)] false =
      generateCode "pkg" ["A", "B"] [("B", exInfoB), ("A", exInfoA)] false :=
  C9_generator_determinism "pkg" ["A", "B"] _ _ false
    (fun k => by
      by_cases h1 : "A" = k
      · subst h1; decide
      · by_cases h2 : "B" = k
        · subst h2; decide
        · simp [alistLookup, h1, h2])
